import Mathlib

/-!
Verification of the idle-animation state machine and notetag parser of
`DirectionalIdleAnimations.js` (RPG Maker MZ plugin).

The JavaScript source is shallowly embedded: each plugin function becomes a
Lean function on an explicit character-state record.  JS numbers holding
integer values (patterns, frame counts, weights) are `Int`/`Nat`; JS numbers
holding fractional time or random draws are `ℚ` (exact arithmetic standing
for IEEE doubles).  Calls to `Math.random() * K` are embedded by passing the
drawn value as an explicit argument.
-/

namespace DirectionalIdleAnimations

/-- One parsed `<IdleAnim: ...>` definition (`{ name, startPattern,
endPattern, probability }` objects pushed by `loadIdleNotetags`). -/
structure IdleAnim where
  name : String
  startPattern : Int
  endPattern : Int
  probability : Int
deriving DecidableEq, Repr

/-- The plugin's module-level configuration constants
(`DEFAULT_MIN_IDLE`, `DEFAULT_MAX_IDLE`, `DEFAULT_PROB`), parsed once from
the plugin parameters. -/
structure PluginConfig where
  DEFAULT_MIN_IDLE : ℚ
  DEFAULT_MAX_IDLE : ℚ
  DEFAULT_PROB : ℚ
deriving DecidableEq, Repr

/-- The fields of `Game_Character` the plugin reads or writes.  The fields
added by the plugin's `initMembers` patch keep their source names; the
host-engine state the plugin consumes (`_characterName`, `_pattern`,
`_direction`, `isMoving()`, `_waitCount`) is embedded as plain fields.
`_idleFrameCount`/`_idleAnimLength` are first assigned in
`startIdleAnimation`; they are carried as ordinary fields here. -/
structure GameCharacter where
  _idleAnimations : List IdleAnim
  _isIdling : Bool
  _idleTimer : ℚ
  _idleMinTime : ℚ
  _idleMaxTime : ℚ
  _currentIdleAnim : Option IdleAnim
  _originalPattern : Int
  _originalCharacterName : String
  _idleFacingDirection : Int
  _characterName : String
  _pattern : Int
  _direction : Int
  _idleFrameCount : Nat
  _idleAnimLength : Int
  isMoving : Bool
  _waitCount : Nat
deriving DecidableEq, Repr

/-- The plugin's `Game_Character.prototype.initMembers` patch: the idle
fields start empty / zero, timing defaults come from the plugin
configuration, facing defaults to 2 (down).  The host-engine fields are
taken as parameters. -/
def initMembers (cfg : PluginConfig) (characterName : String) (pat dir : Int)
    (moving : Bool) (waitCount : Nat) : GameCharacter :=
  { _idleAnimations := []
    _isIdling := false
    _idleTimer := 0
    _idleMinTime := cfg.DEFAULT_MIN_IDLE
    _idleMaxTime := cfg.DEFAULT_MAX_IDLE
    _currentIdleAnim := none
    _originalPattern := 0
    _originalCharacterName := ""
    _idleFacingDirection := 2
    _characterName := characterName
    _pattern := pat
    _direction := dir
    _idleFrameCount := 0
    _idleAnimLength := 0
    isMoving := moving
    _waitCount := waitCount }

/-- `Game_Character.prototype.setCharacterIdleData`: installs the parsed
definitions and applies the optional min/max overrides (`undefined`, i.e.
`none`, leaves the current value). -/
def setCharacterIdleData (st : GameCharacter) (idleAnims : List IdleAnim)
    (minTime maxTime : Option ℚ) : GameCharacter :=
  { st with
    _idleAnimations := idleAnims
    _idleMinTime := minTime.getD st._idleMinTime
    _idleMaxTime := maxTime.getD st._idleMaxTime }

/-- The JS expression `anim.probability || 100`: an integer weight of `0`
(falsy) is replaced by `100`. -/
def probOr100 (p : Int) : Int :=
  if p = 0 then 100 else p

/-- The `reduce` in `startIdleAnimation`:
`this._idleAnimations.reduce((sum, anim) => sum + (anim.probability || 100), 0)`. -/
def totalWeight (anims : List IdleAnim) : Int :=
  anims.foldl (fun sum anim => sum + probOr100 anim.probability) 0

/-- The `for (let anim of this._idleAnimations)` selection loop of
`startIdleAnimation`: subtract each definition's effective weight from the
draw; break with the first definition at which the remainder is `<= 0`. -/
def selectAnim : List IdleAnim → ℚ → Option IdleAnim
  | [], _ => none
  | anim :: rest, rand =>
    let rand1 := rand - (probOr100 anim.probability : Int)
    if rand1 ≤ 0 then some anim else selectAnim rest rand1

/-- `Game_Character.prototype.startIdleAnimation`.  `rand` embeds the value
`Math.random() * totalWeight`.  The early `return` on an empty definition
list is the `[]` branch; `chosenAnim = this._idleAnimations[0]` is the
fallback when the loop breaks nowhere. -/
def startIdleAnimation (st : GameCharacter) (rand : ℚ) : GameCharacter :=
  match st._idleAnimations with
  | [] => st
  | first :: _ =>
    let chosenAnim := (selectAnim st._idleAnimations rand).getD first
    let patternCount := chosenAnim.endPattern - chosenAnim.startPattern + 1
    { st with
      _isIdling := true
      _currentIdleAnim := some chosenAnim
      _originalCharacterName := st._characterName
      _originalPattern := st._pattern
      _idleFacingDirection := st._direction
      _characterName := chosenAnim.name
      _pattern := chosenAnim.startPattern
      _idleFrameCount := 0
      _idleAnimLength := patternCount * 15 }

/-- `Game_Character.prototype.updateIdleAnimationFrame`: increment the frame
counter; on reaching `_idleAnimLength` restore the snapshotted sheet name
and pattern and clear the idle state, otherwise advance the displayed
pattern (`Math.floor(count / 15) % patternCount`, all quantities
non-negative in every reachable call, where `Int` division and `%` agree
with JS) and force the locked facing. -/
def updateIdleAnimationFrame (st : GameCharacter) : GameCharacter :=
  let st1 := { st with _idleFrameCount := st._idleFrameCount + 1 }
  if (st1._idleFrameCount : Int) ≥ st1._idleAnimLength then
    { st1 with
      _characterName := st1._originalCharacterName
      _pattern := st1._originalPattern
      _isIdling := false
      _currentIdleAnim := none
      _idleTimer := 0 }
  else
    match st1._currentIdleAnim with
    | none => st1
    | some anim =>
      let patternCount := anim.endPattern - anim.startPattern + 1
      let patternIndex := ((st1._idleFrameCount : Int) / 15) % patternCount
      { st1 with
        _pattern := anim.startPattern + patternIndex
        _direction := st1._idleFacingDirection }

/-- `Game_Character.prototype.updateIdle`.  `roll` embeds
`Math.random() * 100`; `rand` is the selection draw forwarded to
`startIdleAnimation` (drawn there in the source, on the tick the trigger
fires). -/
def updateIdle (cfg : PluginConfig) (st : GameCharacter) (roll rand : ℚ) :
    GameCharacter :=
  if st.isMoving ∨ st._waitCount > 0 then
    { st with _isIdling := false, _idleTimer := 0, _currentIdleAnim := none }
  else if !st._isIdling then
    let st1 := { st with _idleTimer := st._idleTimer + 1/60 }
    if st1._idleTimer ≥ st1._idleMinTime then
      if st1._idleTimer > st1._idleMaxTime ∨ roll < cfg.DEFAULT_PROB then
        startIdleAnimation st1 rand
      else st1
    else st1
  else
    match st._currentIdleAnim with
    | none => st
    | some _ => updateIdleAnimationFrame st

/-- The patched `Game_Character.prototype.update` driven for `n` ticks:
tick `i` consumes the draws `roll i` and `rand i`. -/
def runTicks (cfg : PluginConfig) (roll rand : ℕ → ℚ) (st : GameCharacter) :
    ℕ → GameCharacter
  | 0 => st
  | n + 1 => updateIdle cfg (runTicks cfg roll rand st n) (roll n) (rand n)

/-! ### Notetag parsing (`loadIdleNotetags`)

The three regular expressions of the source are embedded as deterministic
matchers over `List Char`.  In each of them every greedy sub-pattern is
followed by a character it cannot itself consume (`\s*` by a digit or a
non-space, `[0-9.]+` by `>`, `\d+` by `,`), so backtracking never changes
the outcome and maximal-munch matching is exact — with one exception noted
at `matchIdleAnimAt`. -/

/-- The characters JS `\s` (and `String.prototype.trim`) recognises in the
ASCII range; the plugin's notetags contain no Unicode whitespace. -/
def isJsSpace (c : Char) : Bool :=
  c == ' ' || c == '\t' || c == '\n' || c == '\r' || c == '\x0b' || c == '\x0c'

/-- JS `String.prototype.trim` on a character list. -/
def jsTrim (s : List Char) : List Char :=
  ((s.dropWhile isJsSpace).reverse.dropWhile isJsSpace).reverse

/-- A character of the class `[0-9.]`. -/
def isFloatCh (c : Char) : Bool :=
  c.isDigit || c == '.'

/-- Case-insensitive literal match: drop the pattern (given lowercase) off
the front of the input, `none` if it is not there. -/
def ciDrop : List Char → List Char → Option (List Char)
  | [], s => some s
  | _ :: _, [] => none
  | p :: ps, c :: cs => if c.toLower = p.toLower then ciDrop ps cs else none

/-- Numeric value of a digit string, as JS `parseInt` computes it on an
all-digit capture (`"007"` → `7`). -/
def digitsToNat (ds : List Char) : Nat :=
  ds.foldl (fun n c => 10 * n + (c.toNat - '0'.toNat)) 0

/-- `parseInt(RegExp.$4) || 100` for the optional probability capture: an
absent capture gives `parseInt("")` = NaN (falsy) and a `"0"` capture gives
`0` (falsy); both fall back to `100`. -/
def parsedProbValue : Option (List Char) → Int
  | none => 100
  | some ds => if digitsToNat ds = 0 then 100 else (digitsToNat ds : Int)

/-- JS `parseFloat` on a `[0-9.]+` capture: longest numeric prefix
`\d*(.\d*)?`; `none` embeds NaN (capture of dots only). -/
def jsParseFloatQ (s : List Char) : Option ℚ :=
  let intPart := s.takeWhile Char.isDigit
  let rest := s.dropWhile Char.isDigit
  match rest with
  | '.' :: rest1 =>
    let fracPart := rest1.takeWhile Char.isDigit
    if intPart = [] ∧ fracPart = [] then none
    else some ((digitsToNat intPart : ℚ) +
      (digitsToNat fracPart : ℚ) / ((10 : ℚ) ^ fracPart.length))
  | _ => if intPart = [] then none else some ((digitsToNat intPart : ℚ))

/-- `/<IdleAnimMinTime:\s*([0-9.]+)>/i` tried at the head of the input:
returns the capture. -/
def matchMinTimeAt (s : List Char) : Option (List Char) :=
  match ciDrop ("<idleanimmintime:".data) s with
  | none => none
  | some r0 =>
    let r1 := r0.dropWhile isJsSpace
    let cap := r1.takeWhile isFloatCh
    match cap, r1.dropWhile isFloatCh with
    | _ :: _, '>' :: _ => some cap
    | _, _ => none

/-- `/<IdleAnimMaxTime:\s*([0-9.]+)>/i` tried at the head of the input. -/
def matchMaxTimeAt (s : List Char) : Option (List Char) :=
  match ciDrop ("<idleanimmaxtime:".data) s with
  | none => none
  | some r0 =>
    let r1 := r0.dropWhile isJsSpace
    let cap := r1.takeWhile isFloatCh
    match cap, r1.dropWhile isFloatCh with
    | _ :: _, '>' :: _ => some cap
    | _, _ => none

/-- `/<IdleAnim:\s*([^,]+),\s*(\d+),\s*(\d+)(?:,\s*(\d+))?/i` tried at the
head of the input; yields the four captures (`$4` optional).  The regex has
no closing `>`; trailing text after the last number is ignored.

For `\s*([^,]+),`: whitespace is itself in `[^,]`, so (with backtracking)
the two greedy pieces together consume exactly the maximal run of non-comma
characters, which must be non-empty; `$1` is that run up to relocation of
leading whitespace, and since the caller immediately applies `.trim()` to
`$1`, returning the whole run here is observationally exact. -/
def matchIdleAnimAt (s : List Char) :
    Option (List Char × List Char × List Char × Option (List Char)) :=
  match ciDrop ("<idleanim:".data) s with
  | none => none
  | some r0 =>
    let cap1 := r0.takeWhile (fun c => !(c == ','))
    match cap1, r0.dropWhile (fun c => !(c == ',')) with
    | _ :: _, ',' :: r2 =>
      let r3 := r2.dropWhile isJsSpace
      let cap2 := r3.takeWhile Char.isDigit
      match cap2, r3.dropWhile Char.isDigit with
      | _ :: _, ',' :: r5 =>
        let r6 := r5.dropWhile isJsSpace
        let cap3 := r6.takeWhile Char.isDigit
        match cap3 with
        | [] => none
        | _ :: _ =>
          let cap4 :=
            match r6.dropWhile Char.isDigit with
            | ',' :: r8 =>
              match (r8.dropWhile isJsSpace).takeWhile Char.isDigit with
              | [] => none
              | ds => some ds
            | _ => none
          some (cap1, cap2, cap3, cap4)
      | _, _ => none
    | _, _ => none

/-- Unanchored regex search: try `matchMinTimeAt` at every position, first
success wins (as `String.prototype.match` does). -/
def findMinTimeTag : List Char → Option (List Char)
  | [] => none
  | c :: rest =>
    match matchMinTimeAt (c :: rest) with
    | some cap => some cap
    | none => findMinTimeTag rest

/-- Unanchored search for the max-time tag. -/
def findMaxTimeTag : List Char → Option (List Char)
  | [] => none
  | c :: rest =>
    match matchMaxTimeAt (c :: rest) with
    | some cap => some cap
    | none => findMaxTimeTag rest

/-- Unanchored search for the idle-animation tag. -/
def findIdleAnimTag :
    List Char → Option (List Char × List Char × List Char × Option (List Char))
  | [] => none
  | c :: rest =>
    match matchIdleAnimAt (c :: rest) with
    | some caps => some caps
    | none => findIdleAnimTag rest

/-- JS `"...".split('\n')` on a character list. -/
def splitOnNewline : List Char → List (List Char)
  | [] => [[]]
  | '\n' :: rest => [] :: splitOnNewline rest
  | c :: rest =>
    match splitOnNewline rest with
    | [] => [c] :: []
    | l :: ls => (c :: l) :: ls

/-- The body of the `for (let line of lines)` loop of `loadIdleNotetags`:
trim the line, then try the three tag forms in the source's `else if`
order, updating the accumulated `(idleAnims, minTime, maxTime)`.
A min/max capture that `parseFloat` cannot read (NaN, possible only for a
capture of dots) is embedded as leaving the override unchanged, NaN having
no `ℚ` representative; no well-formed tag hits this case. -/
def parseNoteLine (acc : List IdleAnim × Option ℚ × Option ℚ)
    (rawLine : List Char) : List IdleAnim × Option ℚ × Option ℚ :=
  let line := jsTrim rawLine
  match findMinTimeTag line with
  | some cap => (acc.1, ((jsParseFloatQ cap).orElse fun _ => acc.2.1), acc.2.2)
  | none =>
    match findMaxTimeTag line with
    | some cap => (acc.1, acc.2.1, ((jsParseFloatQ cap).orElse fun _ => acc.2.2))
    | none =>
      match findIdleAnimTag line with
      | some (cap1, cap2, cap3, cap4) =>
        (acc.1 ++ [{ name := ⟨jsTrim cap1⟩
                     startPattern := (digitsToNat cap2 : Int)
                     endPattern := (digitsToNat cap3 : Int)
                     probability := parsedProbValue cap4 }],
         acc.2.1, acc.2.2)
      | none => acc

/-- `Game_Character.prototype.loadIdleNotetags`: early return on a falsy
(empty) note, otherwise split into lines, run the tag loop, and install the
result through `setCharacterIdleData`. -/
def loadIdleNotetags (st : GameCharacter) (note : String) : GameCharacter :=
  if note = "" then st
  else
    let acc := (splitOnNewline note.data).foldl parseNoteLine ([], none, none)
    setCharacterIdleData st acc.1 acc.2.1 acc.2.2

/-! ### Concrete fixtures used by witnesses and counterexamples -/

/-- The plugin's shipped parameter defaults: min 5 s, max 10 s, 80 %. -/
def cfg0 : PluginConfig := ⟨5, 10, 80⟩

/-- The shipped defaults with `DefaultIdleProbability` set to 100. -/
def cfg100 : PluginConfig := ⟨5, 10, 100⟩

/-- A freshly initialised stationary character showing sheet `"Actor1"`,
pattern 1, facing 2. -/
def ch0 : GameCharacter := initMembers cfg0 "Actor1" 1 2 false 0

/-- A weight-30 definition. -/
def animA : IdleAnim := ⟨"A", 0, 0, 30⟩

/-- A probability-0 definition. -/
def animB : IdleAnim := ⟨"B", 0, 0, 0⟩

/-- The spec's §8 scenario definition `{A, 0, 2, 100}`. -/
def idleA : IdleAnim := ⟨"A", 0, 2, 100⟩

/-- The §8 scenario character: one definition, `minIdleTime = 1`,
`maxIdleTime = 2`, otherwise `ch0`. -/
def chA : GameCharacter :=
  { ch0 with _idleAnimations := [idleA], _idleMinTime := 1, _idleMaxTime := 2 }

/-- The scenario character one tick short of the min-time gate. -/
def chA59 : GameCharacter := { chA with _idleTimer := 59/60 }

/-- The state entered on tick 60 of the §8 scenario. -/
def chA60 : GameCharacter :=
  { chA with
    _idleTimer := 1
    _isIdling := true
    _currentIdleAnim := some idleA
    _originalCharacterName := "Actor1"
    _originalPattern := 1
    _idleFacingDirection := 2
    _characterName := "A"
    _pattern := 0
    _idleFrameCount := 0
    _idleAnimLength := 45 }

/-- A character carrying the two-definition list `[animA, animB]`. -/
def chW : GameCharacter := { ch0 with _idleAnimations := [animA, animB] }

/-- A character interrupted mid-idle by motion. -/
def chMoving : GameCharacter :=
  { chA with isMoving := true, _isIdling := true, _idleTimer := 7 }

/-- A misconfigured character: `minIdleTime = 2 > maxIdleTime = 1`. -/
def chBad : GameCharacter := { chA with _idleMinTime := 2, _idleMaxTime := 1, _idleTimer := 2 }

/-- The default character five seconds into standing still. -/
def ch5 : GameCharacter := { ch0 with _idleTimer := 5 }

/-- A note carrying one idle-animation definition and nothing else. -/
def noteFoo : String := "<IdleAnim: Foo, 0, 2>"

/-- An all-zeros draw stream for concrete runs. -/
def zeroStream : ℕ → ℚ := fun _ => 0

/-! ### Spec-side reformulation of the weighted selection (for C2) -/

/-- Stated from the spec's words: the total effective weight of the first
`n` definitions — the running remainder after `n` subtractions is the draw
minus this. -/
def specPrefixWeight (anims : List IdleAnim) (n : Nat) : Int :=
  ((anims.take n).map (fun a => probOr100 a.probability)).sum

/-- Stated from the spec's words: the index of the first definition, in
list order, at which the running remainder after its subtraction is
`<= 0`. -/
def specSelectedIdx (anims : List IdleAnim) (rand : ℚ) : Option Nat :=
  (List.range anims.length).find? fun i =>
    decide (rand - (specPrefixWeight anims (i + 1) : Int) ≤ 0)

end DirectionalIdleAnimations

namespace DirectionalIdleAnimations

/-! ### Shared facts about the trigger branch of `updateIdle` -/

/-- A definition list headed by `a` makes `startIdleAnimation` enter idling. -/
theorem startIdle_isIdling (st : GameCharacter) (rand : ℚ) (a : IdleAnim) (l : List IdleAnim)
    (h : st._idleAnimations = a :: l) : (startIdleAnimation st rand)._isIdling = true := by
  simp only [startIdleAnimation, h]

/-- On a stationary, non-idling tick, `updateIdle` increments the timer and
branches on the min-time gate and the trigger condition. -/
theorem updateIdle_stationary_eq (cfg : PluginConfig) (st : GameCharacter) (roll rand : ℚ)
    (hmov : st.isMoving = false) (hwait : st._waitCount = 0) (hidle : st._isIdling = false) :
    updateIdle cfg st roll rand =
      (if st._idleTimer + 1/60 ≥ st._idleMinTime then
        (if st._idleTimer + 1/60 > st._idleMaxTime ∨ roll < cfg.DEFAULT_PROB then
          startIdleAnimation { st with _idleTimer := st._idleTimer + 1/60 } rand
        else { st with _idleTimer := st._idleTimer + 1/60 })
      else { st with _idleTimer := st._idleTimer + 1/60 }) := by
  simp only [updateIdle, hmov, hwait, hidle]
  norm_num

/-- With at least one definition configured, a stationary, non-idling tick
whose incremented timer has reached `_idleMinTime` enters idling exactly
when the timer exceeds `_idleMaxTime` or the roll beats the global
probability. -/
theorem updateIdle_trigger_char (cfg : PluginConfig) (st : GameCharacter) (roll rand : ℚ)
    (a : IdleAnim) (l : List IdleAnim)
    (hanims : st._idleAnimations = a :: l)
    (hmov : st.isMoving = false) (hwait : st._waitCount = 0)
    (hidle : st._isIdling = false)
    (hmin : st._idleTimer + 1/60 ≥ st._idleMinTime) :
    ((updateIdle cfg st roll rand)._isIdling = true) ↔
      (st._idleTimer + 1/60 > st._idleMaxTime ∨ roll < cfg.DEFAULT_PROB) := by
  rw [updateIdle_stationary_eq cfg st roll rand hmov hwait hidle, if_pos hmin]
  by_cases hc : st._idleTimer + 1/60 > st._idleMaxTime ∨ roll < cfg.DEFAULT_PROB
  · rw [if_pos hc]
    simp only [hc, iff_true]
    exact startIdle_isIdling _ _ a l (by simp [hanims])
  · rw [if_neg hc]
    simpa [hidle] using hc

/-! ### C1 — the trigger decision -/

/-- C1: for a character with a configured definition, stationary
(`isMoving` false, `_waitCount` 0) and not yet idling, once the
(incremented) `_idleTimer` has reached `_idleMinTime`, a tick whose uniform
draw `roll` lies in `[0,100)` enters idling if and only if the timer
strictly exceeds `_idleMaxTime` (forced) or `roll` is strictly below the
global `DEFAULT_PROB`; the per-animation weights appear nowhere in this
condition. -/
theorem C1_trigger_decision (cfg : PluginConfig) (st : GameCharacter) (roll rand : ℚ)
    (a : IdleAnim) (l : List IdleAnim)
    (hanims : st._idleAnimations = a :: l)
    (hmov : st.isMoving = false) (hwait : st._waitCount = 0)
    (hidle : st._isIdling = false)
    (_hroll0 : 0 ≤ roll) (_hroll1 : roll < 100)
    (hmin : st._idleTimer + 1/60 ≥ st._idleMinTime) :
    ((updateIdle cfg st roll rand)._isIdling = true) ↔
      (st._idleTimer + 1/60 > st._idleMaxTime ∨ roll < cfg.DEFAULT_PROB) :=
  updateIdle_trigger_char cfg st roll rand a l hanims hmov hwait hidle hmin

/-- C1 witness: the trigger decision at `cfg0`, timer 59/60, roll 50. -/
theorem C1_trigger_decision_w :
    ((updateIdle cfg0 chA59 50 0)._isIdling = true) ↔
      (chA59._idleTimer + 1/60 > chA59._idleMaxTime ∨ (50:ℚ) < cfg0.DEFAULT_PROB) :=
  C1_trigger_decision cfg0 chA59 50 0 idleA [] rfl rfl rfl rfl (by norm_num) (by norm_num)
    (by norm_num [chA59, chA, ch0, initMembers, cfg0])

/-! ### C5 — the motion / wait reset -/

/-- C5: on a tick where the character is moving or waiting, `updateIdle`
only clears `_isIdling`, zeroes `_idleTimer` and drops
`_currentIdleAnim`; in particular the displayed sheet name and pattern are
untouched (no revert runs on this path). -/
theorem C5_motion_reset (cfg : PluginConfig) (st : GameCharacter) (roll rand : ℚ)
    (h : st.isMoving = true ∨ st._waitCount > 0) :
    updateIdle cfg st roll rand =
      { st with _isIdling := false, _idleTimer := 0, _currentIdleAnim := none } ∧
    (updateIdle cfg st roll rand)._characterName = st._characterName ∧
    (updateIdle cfg st roll rand)._pattern = st._pattern := by
  have he : updateIdle cfg st roll rand =
      { st with _isIdling := false, _idleTimer := 0, _currentIdleAnim := none } := by
    simp only [updateIdle]
    rw [if_pos]
    rcases h with h | h
    · exact Or.inl h
    · exact Or.inr h
  exact ⟨he, by rw [he], by rw [he]⟩

/-- C5 witness: the reset at a concrete moving character. -/
theorem C5_motion_reset_w :
    updateIdle cfg0 chMoving 0 0 =
      { chMoving with _isIdling := false, _idleTimer := 0, _currentIdleAnim := none } ∧
    (updateIdle cfg0 chMoving 0 0)._characterName = chMoving._characterName ∧
    (updateIdle cfg0 chMoving 0 0)._pattern = chMoving._pattern :=
  C5_motion_reset cfg0 chMoving 0 0 (Or.inl rfl)

/-! ### C10 — min above max forces the trigger -/

/-- C10: when `_idleMaxTime < _idleMinTime`, any stationary, non-idling
tick whose incremented timer has reached `_idleMinTime` has already
exceeded `_idleMaxTime`, so idling starts for every value of the roll —
the probability gate is never consulted. -/
theorem C10_min_gt_max_forced (cfg : PluginConfig) (st : GameCharacter) (roll rand : ℚ)
    (a : IdleAnim) (l : List IdleAnim)
    (hanims : st._idleAnimations = a :: l)
    (hmov : st.isMoving = false) (hwait : st._waitCount = 0) (hidle : st._isIdling = false)
    (hmm : st._idleMaxTime < st._idleMinTime)
    (hmin : st._idleTimer + 1/60 ≥ st._idleMinTime) :
    (updateIdle cfg st roll rand)._isIdling = true :=
  (updateIdle_trigger_char cfg st roll rand a l hanims hmov hwait hidle hmin).mpr
    (Or.inl (lt_of_lt_of_le hmm hmin))

/-- C10 witness: the forced trigger fires even at roll 1000, which no
probability value in `[0,100]` admits. -/
theorem C10_min_gt_max_forced_w :
    (updateIdle cfg0 chBad 1000 0)._isIdling = true :=
  C10_min_gt_max_forced cfg0 chBad 1000 0 idleA [] rfl rfl rfl rfl
    (by norm_num [chBad, chA, ch0, initMembers, cfg0])
    (by norm_num [chBad, chA, ch0, initMembers, cfg0])

/-! ### C8 — the probability is not per-character -/

/-- C8, the claim as stated is false: there is no metadata text under which
the trigger decision of a stationary, non-idling, non-forced tick
(`timer + 1/60` between min and max) follows anything but
`roll < cfg.DEFAULT_PROB`, the process-wide default — `loadIdleNotetags`
has no probability notetag and `updateIdle` reads the module constant. -/
theorem C8_prob_override_cex :
    ¬ ∃ (note : String) (cfg : PluginConfig) (st : GameCharacter) (roll rand : ℚ),
      ((loadIdleNotetags st note).isMoving = false ∧
       (loadIdleNotetags st note)._waitCount = 0 ∧
       (loadIdleNotetags st note)._isIdling = false ∧
       (loadIdleNotetags st note)._idleAnimations ≠ [] ∧
       (loadIdleNotetags st note)._idleTimer + 1/60 ≥ (loadIdleNotetags st note)._idleMinTime ∧
       (loadIdleNotetags st note)._idleTimer + 1/60 ≤ (loadIdleNotetags st note)._idleMaxTime) ∧
      ¬(((updateIdle cfg (loadIdleNotetags st note) roll rand)._isIdling = true) ↔
          roll < cfg.DEFAULT_PROB) := by
  rintro ⟨note, cfg, st, roll, rand, ⟨hmov, hwait, hidle, hne, hmin, hmax⟩, hiff⟩
  obtain ⟨a, l, hal⟩ := List.exists_cons_of_ne_nil hne
  apply hiff
  rw [updateIdle_trigger_char cfg _ roll rand a l hal hmov hwait hidle hmin]
  constructor
  · rintro (h | h)
    · linarith
    · exact h
  · exact Or.inr

/-- C8 amended: `minIdleTime` and `maxIdleTime` are overridable per
character through the `<IdleAnimMinTime>`/`<IdleAnimMaxTime>` notetags,
but the idle probability is process-wide only: whatever metadata a
character was loaded with, a non-forced trigger decision compares the roll
against the global `DEFAULT_PROB`. -/
theorem C8_prob_global_only (note : String) (cfg : PluginConfig) (st : GameCharacter)
    (roll rand : ℚ)
    (hmov : (loadIdleNotetags st note).isMoving = false)
    (hwait : (loadIdleNotetags st note)._waitCount = 0)
    (hidle : (loadIdleNotetags st note)._isIdling = false)
    (hne : (loadIdleNotetags st note)._idleAnimations ≠ [])
    (hmin : (loadIdleNotetags st note)._idleTimer + 1/60 ≥ (loadIdleNotetags st note)._idleMinTime)
    (hmax : (loadIdleNotetags st note)._idleTimer + 1/60 ≤ (loadIdleNotetags st note)._idleMaxTime) :
    (((updateIdle cfg (loadIdleNotetags st note) roll rand)._isIdling = true) ↔
        roll < cfg.DEFAULT_PROB) ∧
    (loadIdleNotetags ch0 "<IdleAnimMinTime: 3.0>")._idleMinTime = 3 ∧
    (loadIdleNotetags ch0 "<IdleAnimMaxTime: 8.0>")._idleMaxTime = 8 := by
  refine ⟨?_, ?_, ?_⟩
  · obtain ⟨a, l, hal⟩ := List.exists_cons_of_ne_nil hne
    rw [updateIdle_trigger_char cfg _ roll rand a l hal hmov hwait hidle hmin]
    constructor
    · rintro (h | h)
      · linarith
      · exact h
    · exact Or.inr
  · simp +decide [loadIdleNotetags, splitOnNewline, parseNoteLine, findMinTimeTag,
      matchMinTimeAt, findMaxTimeTag, matchMaxTimeAt, ciDrop, jsTrim, isJsSpace, isFloatCh,
      jsParseFloatQ, digitsToNat, setCharacterIdleData, ch0, initMembers, cfg0]
  · simp +decide [loadIdleNotetags, splitOnNewline, parseNoteLine, findMinTimeTag,
      matchMinTimeAt, findMaxTimeTag, matchMaxTimeAt, ciDrop, jsTrim, isJsSpace, isFloatCh,
      jsParseFloatQ, digitsToNat, setCharacterIdleData, ch0, initMembers, cfg0]

/-- Evaluation of the parser on `noteFoo` over `ch5`. -/
theorem loadFoo_eq : loadIdleNotetags ch5 noteFoo =
    { ch5 with _idleAnimations := [⟨"Foo", 0, 2, 100⟩] } := by decide

/-- C8 witness: the amended statement at `cfg0`, `ch5`, `noteFoo`,
roll 50. -/
theorem C8_prob_global_only_w :
    (((updateIdle cfg0 (loadIdleNotetags ch5 noteFoo) 50 0)._isIdling = true) ↔
        (50:ℚ) < cfg0.DEFAULT_PROB) ∧
    (loadIdleNotetags ch0 "<IdleAnimMinTime: 3.0>")._idleMinTime = 3 ∧
    (loadIdleNotetags ch0 "<IdleAnimMaxTime: 8.0>")._idleMaxTime = 8 :=
  C8_prob_global_only noteFoo cfg0 ch5 50 0 (by decide) (by decide) (by decide) (by decide)
    (by rw [loadFoo_eq]; norm_num [ch5, ch0, initMembers, cfg0])
    (by rw [loadFoo_eq]; norm_num [ch5, ch0, initMembers, cfg0])

/-! ### C3 — zero-weight selection -/

/-- C3, the claim as stated is false: in `[animA (weight 30), animB
(probability 0)]` the probability-0 definition contributes `100`, not `0`,
to the total weight (`totalWeight = 130`, and alone it weighs 100, not 0),
and the just-exhausted draw `30` selects `animA` — the definition whose
subtraction exhausted the draw — not the zero-weight `animB` that follows
it. -/
theorem C3_zero_weight_cex :
    totalWeight [animA, animB] = 130 ∧
    totalWeight [animB] = 100 ∧
    selectAnim [animA, animB] 30 = some animA := by
  refine ⟨by decide, by decide, ?_⟩
  simp [selectAnim, animA, animB, probOr100]

/-- C3 amended: `probability 0` is falsy, so `anim.probability || 100`
gives the definition effective weight 100 in both the subtraction and the
total; such a definition can be selected (draw 100 in `[animA, animB]`
lands in `animB`'s effective slice `(30, 130]`), but a draw exhausted
exactly to 0 is claimed by the `<= 0`-after-subtraction check at the
exhausting definition, so `animB` is never reached with remainder 0. -/
theorem C3_zero_weight_amended :
    probOr100 0 = 100 ∧
    selectAnim [animA, animB] 100 = some animB ∧
    selectAnim [animA, animB] (651/10) = some animB := by
  refine ⟨by decide, ?_, ?_⟩ <;>
    norm_num [selectAnim, animA, animB, probOr100]

/-! ### C7 — notetag line form -/

/-- C7, the claim as stated is false: the parser's regular expression
requires the literal `<IdleAnim:` tag opening, so a text block whose line
is `IdleAnim: Foo, 0, 2` (no angle bracket) contributes no definition at
all. -/
theorem C7_no_bracket_cex :
    (loadIdleNotetags ch0 "IdleAnim: Foo, 0, 2")._idleAnimations = [] := by
  decide

/-- C7 amended: an omitted probability field yields weight 100
(`parsedProbValue none = 100`), and the notetag form with the angle-bracket
prefix, `<IdleAnim: Foo, 0, 2>`, appends exactly
`{name := "Foo", startPattern := 0, endPattern := 2, probability := 100}`. -/
theorem C7_bracket_appends :
    parsedProbValue none = 100 ∧
    (loadIdleNotetags ch0 "<IdleAnim: Foo, 0, 2>")._idleAnimations =
      [{ name := "Foo", startPattern := 0, endPattern := 2, probability := 100 }] := by
  constructor <;> decide

/-! ### C9 — explicit probability 0 parses as 100 -/

/-- C9: a literal `0` probability field is parsed through
`parseInt(...) || 100`, whose result `0` is falsy, so the stored
probability is 100 — both at the fallback itself and through the whole
parser on `<IdleAnim: Foo, 0, 2, 0>`. -/
theorem C9_prob_zero_parses_as_100 :
    parsedProbValue (some ['0']) = 100 ∧
    (loadIdleNotetags ch0 "<IdleAnim: Foo, 0, 2, 0>")._idleAnimations =
      [{ name := "Foo", startPattern := 0, endPattern := 2, probability := 100 }] := by
  constructor <;> decide

end DirectionalIdleAnimations
namespace DirectionalIdleAnimations

/-- Folding the weight sum from `init` shifts the result by `init`. -/
theorem weight_foldl_init (anims : List IdleAnim) (init : Int) :
    anims.foldl (fun sum anim => sum + probOr100 anim.probability) init
      = init + anims.foldl (fun sum anim => sum + probOr100 anim.probability) 0 := by
  induction anims generalizing init with
  | nil => simp
  | cons a rest ih =>
    rw [List.foldl_cons, List.foldl_cons, ih (init + _), ih (0 + _)]
    ring

/-- `totalWeight` peels one definition at a time. -/
theorem totalWeight_cons (a : IdleAnim) (rest : List IdleAnim) :
    totalWeight (a :: rest) = probOr100 a.probability + totalWeight rest := by
  simp only [totalWeight, List.foldl_cons]
  rw [weight_foldl_init]
  ring

/-- The `reduce` computes the sum of the effective weights. -/
theorem totalWeight_eq_sum (anims : List IdleAnim) :
    totalWeight anims = (anims.map (fun a => probOr100 a.probability)).sum := by
  induction anims with
  | nil => simp [totalWeight]
  | cons a rest ih => rw [totalWeight_cons, List.map_cons, List.sum_cons, ih]

theorem specPrefixWeight_zero (anims : List IdleAnim) : specPrefixWeight anims 0 = 0 := by
  simp [specPrefixWeight]

theorem specPrefixWeight_cons (a : IdleAnim) (rest : List IdleAnim) (n : Nat) :
    specPrefixWeight (a :: rest) (n + 1) = probOr100 a.probability + specPrefixWeight rest n := by
  simp [specPrefixWeight, List.take_succ_cons]

/-- The source's subtract-and-break loop selects exactly the definition at
the spec's first-hit index. -/
theorem selectAnim_eq_spec (anims : List IdleAnim) (rand : ℚ) :
    selectAnim anims rand = (specSelectedIdx anims rand).bind anims.get? := by
  induction anims generalizing rand with
  | nil => simp [selectAnim, specSelectedIdx]
  | cons a rest ih =>
    simp only [selectAnim]
    by_cases h : rand - (probOr100 a.probability : Int) ≤ 0
    · rw [if_pos h]
      have hidx : specSelectedIdx (a :: rest) rand = some 0 := by
        unfold specSelectedIdx
        rw [List.length_cons, List.range_succ_eq_map]
        rw [List.find?_cons_of_pos]
        simpa [specPrefixWeight_cons, specPrefixWeight_zero] using h
      rw [hidx]
      rfl
    · rw [if_neg h]
      rw [ih]
      unfold specSelectedIdx
      rw [List.length_cons, List.range_succ_eq_map,
        List.find?_cons_of_neg _ (by simpa [specPrefixWeight_cons, specPrefixWeight_zero] using h),
        List.find?_map]
      have hpred : ∀ i : ℕ,
          (decide (rand - (specPrefixWeight (a :: rest) (i + 1 + 1) : Int) ≤ 0)) =
          (decide (rand - (probOr100 a.probability : Int) - (specPrefixWeight rest (i + 1) : Int) ≤ 0)) := by
        intro i
        rw [decide_eq_decide, specPrefixWeight_cons]
        push_cast
        constructor <;> intro <;> linarith
      simp only [Function.comp_def, Nat.succ_eq_add_one, hpred]
      cases hfind : (List.range rest.length).find? fun i =>
          decide (rand - (probOr100 a.probability : Int) - (specPrefixWeight rest (i + 1) : Int) ≤ 0) with
      | none => rfl
      | some j => rfl

end DirectionalIdleAnimations

namespace DirectionalIdleAnimations

/-- Any draw strictly below the total weight is claimed by some
definition: the walk cannot fall through. -/
theorem selectAnim_isSome_of_lt (anims : List IdleAnim) (rand : ℚ)
    (h0 : 0 ≤ rand) (h1 : rand < ((totalWeight anims : Int) : ℚ)) :
    (selectAnim anims rand).isSome = true := by
  induction anims generalizing rand with
  | nil =>
    exfalso
    simp [totalWeight] at h1
    linarith
  | cons a rest ih =>
    simp only [selectAnim]
    by_cases h : rand - (probOr100 a.probability : Int) ≤ 0
    · rw [if_pos h]; rfl
    · rw [if_neg h]
      push_neg at h
      apply ih
      · linarith
      · have ht : ((totalWeight (a :: rest) : Int) : ℚ) =
            ((probOr100 a.probability : Int) : ℚ) + ((totalWeight rest : Int) : ℚ) := by
          rw [totalWeight_cons]; push_cast; ring
        rw [ht] at h1
        linarith

/-- A selected definition is a member of the list. -/
theorem selectAnim_mem (anims : List IdleAnim) (rand : ℚ) (a : IdleAnim)
    (h : selectAnim anims rand = some a) : a ∈ anims := by
  induction anims generalizing rand with
  | nil => simp [selectAnim] at h
  | cons b rest ih =>
    simp only [selectAnim] at h
    by_cases hc : rand - (probOr100 b.probability : Int) ≤ 0
    · rw [if_pos hc] at h
      cases h
      exact List.mem_cons_self _ _
    · rw [if_neg hc] at h
      exact List.mem_cons_of_mem b (ih _ h)

/-- `startIdleAnimation` on a non-empty list, written out. -/
theorem startIdle_fields (st : GameCharacter) (rand0 : ℚ) (first : IdleAnim)
    (rest : List IdleAnim) (hanims : st._idleAnimations = first :: rest) :
    startIdleAnimation st rand0 =
      { st with
        _isIdling := true
        _currentIdleAnim := some ((selectAnim (first :: rest) rand0).getD first)
        _originalCharacterName := st._characterName
        _originalPattern := st._pattern
        _idleFacingDirection := st._direction
        _characterName := ((selectAnim (first :: rest) rand0).getD first).name
        _pattern := ((selectAnim (first :: rest) rand0).getD first).startPattern
        _idleFrameCount := 0
        _idleAnimLength := (((selectAnim (first :: rest) rand0).getD first).endPattern -
          ((selectAnim (first :: rest) rand0).getD first).startPattern + 1) * 15 } := by
  simp only [startIdleAnimation, hanims]

end DirectionalIdleAnimations

namespace DirectionalIdleAnimations

/-- Playback invariant skeleton (scratch). -/
theorem runTicks_playback (cfg : PluginConfig) (roll rand : ℕ → ℚ) (st1 : GameCharacter)
    (c : IdleAnim)
    (hmov : st1.isMoving = false) (hwait : st1._waitCount = 0)
    (hidle : st1._isIdling = true) (hcur : st1._currentIdleAnim = some c)
    (hfc : st1._idleFrameCount = 0)
    (hpat : st1._pattern = c.startPattern)
    (hdir : st1._direction = st1._idleFacingDirection)
    (hL : st1._idleAnimLength = (c.endPattern - c.startPattern + 1) * 15)
    (hse : c.startPattern ≤ c.endPattern) :
    (∀ k : ℕ, (k : Int) < st1._idleAnimLength →
      runTicks cfg roll rand st1 k =
        { st1 with
          _idleFrameCount := k
          _pattern := c.startPattern + (((k : Int) / 15) % (c.endPattern - c.startPattern + 1))
          _direction := st1._idleFacingDirection }) ∧
    runTicks cfg roll rand st1 st1._idleAnimLength.toNat =
      { st1 with
        _idleFrameCount := st1._idleAnimLength.toNat
        _characterName := st1._originalCharacterName
        _pattern := st1._originalPattern
        _direction := st1._idleFacingDirection
        _isIdling := false
        _currentIdleAnim := none
        _idleTimer := 0 } := by
  obtain ⟨anims, idl, tmr, mn, mx, cur, opat, oname, fdir, cname, pat, dir, fc, len, mov, wc⟩ := st1
  simp only at hmov hwait hidle hcur hfc hpat hdir hL ⊢
  subst hmov hwait hidle hcur hfc hpat hdir hL
  have hcnt : (1 : Int) ≤ c.endPattern - c.startPattern + 1 := by omega
  have hadv : ∀ k : ℕ, (k : Int) < (c.endPattern - c.startPattern + 1) * 15 →
      runTicks cfg roll rand
        ⟨anims, true, tmr, mn, mx, some c, opat, oname, dir, cname, c.startPattern, dir, 0,
          (c.endPattern - c.startPattern + 1) * 15, false, 0⟩ k =
        ⟨anims, true, tmr, mn, mx, some c, opat, oname, dir, cname,
          c.startPattern + (((k : Int) / 15) % (c.endPattern - c.startPattern + 1)), dir, k,
          (c.endPattern - c.startPattern + 1) * 15, false, 0⟩ := by
    intro k
    induction k with
    | zero =>
      intro _
      simp only [runTicks]
      norm_num
    | succ k ih =>
      intro hk
      have hk' : (k : Int) < (c.endPattern - c.startPattern + 1) * 15 := by
        push_cast at hk ⊢
        linarith
      simp only [runTicks]
      rw [ih hk']
      simp only [updateIdle]
      norm_num
      simp only [updateIdleAnimationFrame]
      rw [if_neg (by push_cast at hk ⊢; omega)]
      push_cast
      rfl
  refine ⟨fun k hk => hadv k hk, ?_⟩
  have hLpos : (0 : Int) < (c.endPattern - c.startPattern + 1) * 15 := by
    have h15 : (15 : Int) ≤ (c.endPattern - c.startPattern + 1) * 15 := by
      nlinarith
    omega
  have hLt : ((((c.endPattern - c.startPattern + 1) * 15).toNat : ℕ) : Int) =
      (c.endPattern - c.startPattern + 1) * 15 := Int.toNat_of_nonneg (le_of_lt hLpos)
  have h1 : ((c.endPattern - c.startPattern + 1) * 15).toNat =
      (((c.endPattern - c.startPattern + 1) * 15).toNat - 1) + 1 := by omega
  rw [h1]
  simp only [runTicks]
  rw [hadv ((((c.endPattern - c.startPattern + 1) * 15).toNat - 1)) (by omega)]
  simp only [updateIdle]
  norm_num
  simp only [updateIdleAnimationFrame]
  rw [if_pos (by push_cast; omega)]

end DirectionalIdleAnimations

namespace DirectionalIdleAnimations

/-- C2: for every non-empty definition list and draw in
`[0, totalWeight)`, the chosen animation is the walk's result (with the
first definition as fallback), the walk coincides with the spec's
first-index-at-which-the-running-remainder-is-nonpositive description,
the walk always selects some definition on that draw range, and
`totalWeight` is the sum of the effective weights. -/
theorem C2_weighted_selection (st : GameCharacter) (rand : ℚ) (first : IdleAnim)
    (rest : List IdleAnim)
    (hanims : st._idleAnimations = first :: rest)
    (h0 : 0 ≤ rand) (h1 : rand < ((totalWeight (first :: rest) : Int) : ℚ)) :
    (startIdleAnimation st rand)._currentIdleAnim =
        some ((selectAnim (first :: rest) rand).getD first) ∧
    selectAnim (first :: rest) rand =
        (specSelectedIdx (first :: rest) rand).bind (first :: rest).get? ∧
    (selectAnim (first :: rest) rand).isSome = true ∧
    totalWeight (first :: rest) =
      ((first :: rest).map fun a => probOr100 a.probability).sum := by
  refine ⟨?_, selectAnim_eq_spec _ _, selectAnim_isSome_of_lt _ _ h0 h1, totalWeight_eq_sum _⟩
  rw [startIdle_fields st rand first rest hanims]

/-- C2 witness: the selection facts at the concrete list
`[animA, animB]` and draw 100. -/
theorem C2_weighted_selection_w :
    (startIdleAnimation chW 100)._currentIdleAnim =
        some ((selectAnim [animA, animB] 100).getD animA) ∧
    selectAnim [animA, animB] 100 =
        (specSelectedIdx [animA, animB] 100).bind [animA, animB].get? ∧
    (selectAnim [animA, animB] 100).isSome = true ∧
    totalWeight [animA, animB] =
      ([animA, animB].map fun a => probOr100 a.probability).sum :=
  C2_weighted_selection chW 100 animA [animB] rfl (by norm_num)
    (by have h : totalWeight [animA, animB] = 130 := by decide
        rw [h]; norm_num)

/-- C4: starting an idle animation and then running `_idleAnimLength`
uninterrupted stationary ticks restores the displayed sheet name and
pattern to exactly their pre-idle snapshotted values, clears `_isIdling`
and `_currentIdleAnim`, and resets `_idleTimer` to zero — a round trip on
the displayed state. -/
theorem C4_idle_roundtrip (cfg : PluginConfig) (roll rand : ℕ → ℚ) (rand0 : ℚ)
    (st : GameCharacter) (first : IdleAnim) (rest : List IdleAnim)
    (hanims : st._idleAnimations = first :: rest)
    (hse : ∀ b ∈ first :: rest, b.startPattern ≤ b.endPattern)
    (hmov : st.isMoving = false) (hwait : st._waitCount = 0) :
    ((startIdleAnimation st rand0)._isIdling = true) ∧
    ((runTicks cfg roll rand (startIdleAnimation st rand0)
        (startIdleAnimation st rand0)._idleAnimLength.toNat)._characterName = st._characterName) ∧
    ((runTicks cfg roll rand (startIdleAnimation st rand0)
        (startIdleAnimation st rand0)._idleAnimLength.toNat)._pattern = st._pattern) ∧
    ((runTicks cfg roll rand (startIdleAnimation st rand0)
        (startIdleAnimation st rand0)._idleAnimLength.toNat)._isIdling = false) ∧
    ((runTicks cfg roll rand (startIdleAnimation st rand0)
        (startIdleAnimation st rand0)._idleAnimLength.toNat)._currentIdleAnim = none) ∧
    ((runTicks cfg roll rand (startIdleAnimation st rand0)
        (startIdleAnimation st rand0)._idleAnimLength.toNat)._idleTimer = 0) := by
  have hcmem : (selectAnim (first :: rest) rand0).getD first ∈ first :: rest := by
    cases hsel : selectAnim (first :: rest) rand0 with
    | none => simp
    | some a => simpa using selectAnim_mem _ _ _ hsel
  have hstart := startIdle_fields st rand0 first rest hanims
  have hp := (runTicks_playback cfg roll rand (startIdleAnimation st rand0)
      ((selectAnim (first :: rest) rand0).getD first)
      (by rw [hstart]; exact hmov)
      (by rw [hstart]; exact hwait)
      (by rw [hstart])
      (by rw [hstart])
      (by rw [hstart])
      (by rw [hstart])
      (by rw [hstart])
      (by rw [hstart])
      (hse _ hcmem)).2
  refine ⟨by rw [hstart], ?_, ?_, ?_, ?_, ?_⟩ <;> rw [hp, hstart]

/-- C4 witness: the round trip on the §8 scenario character. -/
theorem C4_idle_roundtrip_w :
    ((startIdleAnimation chA 0)._isIdling = true) ∧
    ((runTicks cfg0 (fun _ => 0) (fun _ => 0) (startIdleAnimation chA 0)
        (startIdleAnimation chA 0)._idleAnimLength.toNat)._characterName = chA._characterName) ∧
    ((runTicks cfg0 (fun _ => 0) (fun _ => 0) (startIdleAnimation chA 0)
        (startIdleAnimation chA 0)._idleAnimLength.toNat)._pattern = chA._pattern) ∧
    ((runTicks cfg0 (fun _ => 0) (fun _ => 0) (startIdleAnimation chA 0)
        (startIdleAnimation chA 0)._idleAnimLength.toNat)._isIdling = false) ∧
    ((runTicks cfg0 (fun _ => 0) (fun _ => 0) (startIdleAnimation chA 0)
        (startIdleAnimation chA 0)._idleAnimLength.toNat)._currentIdleAnim = none) ∧
    ((runTicks cfg0 (fun _ => 0) (fun _ => 0) (startIdleAnimation chA 0)
        (startIdleAnimation chA 0)._idleAnimLength.toNat)._idleTimer = 0) :=
  C4_idle_roundtrip cfg0 (fun _ => 0) (fun _ => 0) 0 chA idleA [] rfl (by decide) rfl rfl

end DirectionalIdleAnimations

namespace DirectionalIdleAnimations

/-- While the min-time gate is closed (`n ≤ 59` ticks at 1/60 s), only the
timer moves: it sits at `n/60` seconds. -/
theorem chA_phase1 (roll rand : ℕ → ℚ) :
    ∀ n : ℕ, n ≤ 59 →
      runTicks cfg100 roll rand chA n = { chA with _idleTimer := (n : ℚ)/60 } := by
  intro n
  induction n with
  | zero =>
    intro _
    simp only [runTicks]
    simp [chA, ch0, initMembers, cfg0]
  | succ n ih =>
    intro hn
    simp only [runTicks]
    rw [ih (by omega)]
    rw [updateIdle_stationary_eq cfg100 _ _ _ rfl rfl rfl]
    have hlt : ((n : ℚ))/60 + 1/60 < 1 := by
      rw [div_add_div_same, div_lt_one (by norm_num)]
      exact_mod_cast (by omega : n + 1 < 60)
    rw [if_neg (by simpa [chA, ch0, initMembers, cfg0] using not_le.mpr hlt)]
    simp [chA, ch0, initMembers, cfg0]
    ring

/-- With a single configured definition the selection always lands on it,
whatever the draw (either the subtraction breaks at it or the fallback
returns it). -/
theorem selectAnim_single_getD (r : ℚ) : (selectAnim [idleA] r).getD idleA = idleA := by
  simp only [selectAnim]
  by_cases h : r - ((probOr100 idleA.probability : Int) : ℚ) ≤ 0
  · rw [if_pos h]; rfl
  · rw [if_neg h]; rfl

/-- Tick 60 is the trigger tick: the incremented timer reaches 1.0 and,
with probability 100, any roll below 100 fires the transition. -/
theorem chA_fire (roll rand : ℕ → ℚ) (hroll : roll 59 < 100) :
    runTicks cfg100 roll rand chA 60 = chA60 := by
  have h59 : runTicks cfg100 roll rand chA 59 = chA59 := by
    rw [chA_phase1 roll rand 59 (by omega)]
    simp [chA59, chA, ch0, initMembers, cfg0]
  show updateIdle cfg100 (runTicks cfg100 roll rand chA 59) (roll 59) (rand 59) = chA60
  rw [h59]
  rw [updateIdle_stationary_eq cfg100 chA59 (roll 59) (rand 59) rfl rfl rfl]
  have hge : chA59._idleTimer + 1/60 ≥ chA59._idleMinTime := by
    norm_num [chA59, chA, ch0, initMembers, cfg0]
  have hcond : chA59._idleTimer + 1/60 > chA59._idleMaxTime ∨ roll 59 < cfg100.DEFAULT_PROB :=
    Or.inr hroll
  rw [if_pos hge, if_pos hcond]
  rw [startIdle_fields _ (rand 59) idleA [] rfl]
  rw [selectAnim_single_getD]
  simp [chA59, chA, chA60, ch0, initMembers, cfg0, idleA]
  norm_num

/-- Splitting a run at tick `m`. -/
theorem runTicks_add (cfg : PluginConfig) (roll rand : ℕ → ℚ) (st : GameCharacter) (m k : ℕ) :
    runTicks cfg roll rand st (m + k) =
      runTicks cfg (fun i => roll (m + i)) (fun i => rand (m + i))
        (runTicks cfg roll rand st m) k := by
  induction k with
  | zero => rfl
  | succ k ih =>
    show updateIdle cfg (runTicks cfg roll rand st (m + k)) (roll (m + k)) (rand (m + k)) = _
    rw [ih]
    rfl

/-- The state after the full §8 run: 60 ticks to trigger, 45 playback
ticks to completion. -/
theorem chA_run105 (roll rand : ℕ → ℚ) (hroll : roll 59 < 100) :
    runTicks cfg100 roll rand chA 105 =
      { chA60 with
        _idleFrameCount := 45
        _characterName := "Actor1"
        _pattern := 1
        _isIdling := false
        _currentIdleAnim := none
        _idleTimer := 0 } := by
  have h60 : (105 : ℕ) = 60 + 45 := rfl
  rw [h60, runTicks_add, chA_fire roll rand hroll]
  exact (runTicks_playback cfg100 (fun i => roll (60 + i)) (fun i => rand (60 + i))
      chA60 idleA rfl rfl rfl rfl rfl rfl rfl (by decide) (by decide)).2

end DirectionalIdleAnimations

namespace DirectionalIdleAnimations

/-- C6, the claim as stated is false: with exact 1/60-second increments the
timer reaches exactly 1.0 on tick 60, so in the §8 scenario
(one definition {A,0,2,100}, min 1 s, max 2 s, probability 100) the idle
trigger already fires on tick 60, not tick 61. -/
theorem C6_tick60_fires_cex :
    (runTicks cfg100 zeroStream zeroStream chA 60)._isIdling = true := by
  rw [chA_fire zeroStream zeroStream (by norm_num [zeroStream])]
  rfl

/-- C6 amended: in the §8 scenario with any roll stream whose tick-60 roll
is below 100, the character is still not idling through tick 59, the
trigger fires on tick 60 — the first tick at which the accumulated timer
reaches `minIdleTime = 1.0` — with `frameCountTotal = (2-0+1)*15 = 45`,
and 45 further ticks later the sheet name and pattern are back at their
originals with `idleTimer` reset to 0. -/
theorem C6_scenario (roll rand : ℕ → ℚ) (hroll : roll 59 < 100) :
    (∀ n : ℕ, n ≤ 59 → (runTicks cfg100 roll rand chA n)._isIdling = false) ∧
    ((runTicks cfg100 roll rand chA 60)._isIdling = true) ∧
    ((runTicks cfg100 roll rand chA 60)._idleAnimLength = 45) ∧
    ((runTicks cfg100 roll rand chA 105)._characterName = chA._characterName) ∧
    ((runTicks cfg100 roll rand chA 105)._pattern = chA._pattern) ∧
    ((runTicks cfg100 roll rand chA 105)._isIdling = false) ∧
    ((runTicks cfg100 roll rand chA 105)._idleTimer = 0) := by
  refine ⟨fun n hn => ?_, ?_, ?_, ?_, ?_, ?_, ?_⟩
  · rw [chA_phase1 roll rand n hn]
    rfl
  · rw [chA_fire roll rand hroll]
    rfl
  · rw [chA_fire roll rand hroll]
    rfl
  · rw [chA_run105 roll rand hroll]
    rfl
  · rw [chA_run105 roll rand hroll]
    rfl
  · rw [chA_run105 roll rand hroll]
  · rw [chA_run105 roll rand hroll]

/-- C6 witness: the amended scenario run on the all-zeros draw streams. -/
theorem C6_scenario_w :
    (∀ n : ℕ, n ≤ 59 → (runTicks cfg100 zeroStream zeroStream chA n)._isIdling = false) ∧
    ((runTicks cfg100 zeroStream zeroStream chA 60)._isIdling = true) ∧
    ((runTicks cfg100 zeroStream zeroStream chA 60)._idleAnimLength = 45) ∧
    ((runTicks cfg100 zeroStream zeroStream chA 105)._characterName = chA._characterName) ∧
    ((runTicks cfg100 zeroStream zeroStream chA 105)._pattern = chA._pattern) ∧
    ((runTicks cfg100 zeroStream zeroStream chA 105)._isIdling = false) ∧
    ((runTicks cfg100 zeroStream zeroStream chA 105)._idleTimer = 0) :=
  C6_scenario zeroStream zeroStream (by norm_num [zeroStream])

end DirectionalIdleAnimations
